import Mathlib

/-!
Verification of the blocking SPI layer (src/spi/blocking.rs): the
`ExclusiveDevice` transaction protocol, its error wrapper, the bus
capability contracts, the device-level convenience methods, and the
blanket delegation of every contract through a unique temporary
reference.  Rust `Result` becomes `Except`, `&mut` state becomes
explicit state passing, and the fallible chip-select pin is modelled
by a scripted outcome list so that every possible pin behaviour is
covered by some script.
-/

/-- Modelled from the spec: the SPI error taxonomy of the parent spi module
(its source file is not under src): mode fault, overrun, framing or format
error, chip-select fault, and a catch-all other kind. -/
inductive ErrorKind where
  | Other
  | ModeFault
  | Overrun
  | FrameFormat
  | ChipSelectFault
  deriving DecidableEq, Repr

/-- Error type for `ExclusiveDevice` operations
(src/spi/blocking.rs lines 295-301). -/
inductive ExclusiveDeviceError (BUS CS : Type) where
  | Spi (e : BUS)
  | Cs (e : CS)
  deriving DecidableEq, Repr

/-- The Error impl for `ExclusiveDeviceError` (src/spi/blocking.rs lines
303-314): a wrapped bus error delegates to the bus error kind function
`busKind` (standing for the wrapped type implementation of Error::kind),
a wrapped chip-select failure is always a chip-select fault. -/
def ExclusiveDeviceError.kind (busKind : BUS → ErrorKind) :
    ExclusiveDeviceError BUS CS → ErrorKind
  | .Spi e => busKind e
  | .Cs _ => ErrorKind.ChipSelectFault

/-- Modelled from the spec: the digital output pin contract used for chip
select (digital::blocking::OutputPin, whose source file is not under src).
The pin has an electrical level (true = high, the inactive level) and two
fallible drive operations; the script lists the outcome of each successive
drive call (none = success), so quantifying over all pins with all scripts
covers every possible pin behaviour. -/
structure OutputPin (CSErr : Type) where
  level : Bool
  script : List (Option CSErr)
  deriving DecidableEq, Repr

/-- Drive the pin low (the active level); fallible. -/
def OutputPin.setLow (p : OutputPin CSErr) : Except CSErr Unit × OutputPin CSErr :=
  match p.script with
  | [] => (Except.ok (), { level := false, script := [] })
  | none :: rest => (Except.ok (), { level := false, script := rest })
  | some e :: rest => (Except.error e, { level := p.level, script := rest })

/-- Drive the pin high (the inactive level); fallible. -/
def OutputPin.setHigh (p : OutputPin CSErr) : Except CSErr Unit × OutputPin CSErr :=
  match p.script with
  | [] => (Except.ok (), { level := true, script := [] })
  | none :: rest => (Except.ok (), { level := true, script := rest })
  | some e :: rest => (Except.error e, { level := p.level, script := rest })

/-- Observable events of one `ExclusiveDevice` transaction: each pin drive
call with its outcome, and each bus operation performed by the body. -/
inductive TxEvent (CSErr BusEv : Type) where
  | setLow (err : Option CSErr)
  | setHigh (err : Option CSErr)
  | bus (e : BusEv)
  deriving DecidableEq, Repr

/-- Number of setHigh (chip-select deassert) calls recorded in a trace. -/
def countSetHigh : List (TxEvent CSErr BusEv) → Nat
  | [] => 0
  | TxEvent.setHigh _ :: rest => countSetHigh rest + 1
  | TxEvent.setLow _ :: rest => countSetHigh rest
  | TxEvent.bus _ :: rest => countSetHigh rest

/-- Forget the payload of a pin drive outcome, keeping only the error if any. -/
def errOpt : Except CSErr Unit → Option CSErr
  | Except.ok _ => none
  | Except.error e => some e

/-- `ExclusiveDevice` (src/spi/blocking.rs lines 320-323): owns a bus handle
and a chip-select pin. -/
structure ExclusiveDevice (BUS CSErr : Type) where
  bus : BUS
  cs : OutputPin CSErr

/-- ExclusiveDevice::new (src/spi/blocking.rs lines 325-330). -/
def ExclusiveDevice.new (bus : BUS) (cs : OutputPin CSErr) : ExclusiveDevice BUS CSErr :=
  { bus := bus, cs := cs }

/-- ExclusiveDevice::transaction (src/spi/blocking.rs lines 347-362).
The body `f` is modelled as a state-passing function on the bus which also
reports the list of bus operations it performed; the result records the
outcome, the final device state, and the observable event trace.
Mirrors the source: set_low with early return wrapped as Cs, then the body,
then an unconditional set_high, then the body error (wrapped as Spi) takes
precedence, then the set_high error (wrapped as Cs), else the body value. -/
def ExclusiveDevice.transaction (d : ExclusiveDevice BUS CSErr)
    (f : BUS → Except BusErr R × BUS × List BusEv) :
    Except (ExclusiveDeviceError BusErr CSErr) R × ExclusiveDevice BUS CSErr ×
      List (TxEvent CSErr BusEv) :=
  match d.cs.setLow with
  | (Except.error e, cs1) =>
      (Except.error (ExclusiveDeviceError.Cs e), { bus := d.bus, cs := cs1 },
        [TxEvent.setLow (some e)])
  | (Except.ok _, cs1) =>
      let fOut := f d.bus
      let csOut := cs1.setHigh
      let trace := TxEvent.setLow none ::
        (fOut.2.2.map TxEvent.bus ++ [TxEvent.setHigh (errOpt csOut.1)])
      match fOut.1 with
      | Except.error e =>
          (Except.error (ExclusiveDeviceError.Spi e),
            { bus := fOut.2.1, cs := csOut.2 }, trace)
      | Except.ok r =>
          match csOut.1 with
          | Except.error e =>
              (Except.error (ExclusiveDeviceError.Cs e),
                { bus := fOut.2.1, cs := csOut.2 }, trace)
          | Except.ok _ =>
              (Except.ok r, { bus := fOut.2.1, cs := csOut.2 }, trace)

/-- SpiBusRead (src/spi/blocking.rs lines 236-242): fill a caller-supplied
buffer of words from the slave. The mutated buffer is returned alongside
the result and the new bus state. -/
structure SpiBusReadOps (B Word BusErr : Type) where
  read : B → List Word → Except BusErr Unit × List Word × B

/-- SpiBusWrite (src/spi/blocking.rs lines 251-254): transmit a buffer of
words to the slave, incoming words discarded. -/
structure SpiBusWriteOps (B Word BusErr : Type) where
  write : B → List Word → Except BusErr Unit × B

/-- SpiBus (src/spi/blocking.rs lines 267-282): read-write bus, requiring
both narrower capabilities, adding transfer and transfer_in_place. Mutated
read buffers are returned alongside the result and the new bus state. -/
structure SpiBusOps (B Word BusErr : Type) extends
    SpiBusReadOps B Word BusErr, SpiBusWriteOps B Word BusErr where
  transfer : B → List Word → List Word → Except BusErr Unit × List Word × B
  transferInPlace : B → List Word → Except BusErr Unit × List Word × B

/-- The SpiDevice trait core operation (src/spi/blocking.rs lines 156-174):
a transaction takes a body acting on the lent bus and produces a device-level
result plus the new device state. Any implementation is some value of this
structure. -/
structure SpiDeviceOps (D B BusErr DevErr : Type) : Type 1 where
  transaction : {R : Type} → D → (B → Except BusErr R × B) → Except DevErr R × D

/-- SpiDevice::write default method (src/spi/blocking.rs lines 181-186):
a transaction whose body is a single bus write. -/
def SpiDeviceOps.write (dev : SpiDeviceOps D B BusErr DevErr)
    (bus : SpiBusWriteOps B Word BusErr) (d : D) (buf : List Word) :
    Except DevErr Unit × D :=
  dev.transaction d (fun b => bus.write b buf)

/-- SpiDevice::read default method (src/spi/blocking.rs lines 193-198):
a transaction whose body is a single bus read; the buffer mutated through
the Rust unique reference is threaded through the transaction result. -/
def SpiDeviceOps.read (dev : SpiDeviceOps D B BusErr DevErr)
    (bus : SpiBusReadOps B Word BusErr) (d : D) (buf : List Word) :
    Except DevErr (List Word) × D :=
  dev.transaction d (fun b =>
    let out := bus.read b buf
    (out.1.map (fun _ => out.2.1), out.2.2))

/-- SpiDevice::transfer default method (src/spi/blocking.rs lines 205-210):
a transaction whose body is a single bus transfer. -/
def SpiDeviceOps.transfer (dev : SpiDeviceOps D B BusErr DevErr)
    (bus : SpiBusOps B Word BusErr) (d : D) (rbuf wbuf : List Word) :
    Except DevErr (List Word) × D :=
  dev.transaction d (fun b =>
    let out := bus.transfer b rbuf wbuf
    (out.1.map (fun _ => out.2.1), out.2.2))

/-- SpiDevice::transfer_in_place default method (src/spi/blocking.rs lines
217-222): a transaction whose body is a single in-place bus transfer. -/
def SpiDeviceOps.transferInPlace (dev : SpiDeviceOps D B BusErr DevErr)
    (bus : SpiBusOps B Word BusErr) (d : D) (buf : List Word) :
    Except DevErr (List Word) × D :=
  dev.transaction d (fun b =>
    let out := bus.transferInPlace b buf
    (out.1.map (fun _ => out.2.1), out.2.2))

/-- A unique temporary reference to a handle, modelling the Rust unique
reference type in the blanket impls: it wraps the referenced state. -/
structure MutRef (T : Type) where
  val : T

/-- Blanket impl of SpiBusRead for a unique reference
(src/spi/blocking.rs lines 244-248): delegates to the owned handle. -/
def SpiBusReadOps.forMutRef (ops : SpiBusReadOps B Word BusErr) :
    SpiBusReadOps (MutRef B) Word BusErr where
  read := fun r words =>
    let out := ops.read r.val words
    (out.1, out.2.1, { val := out.2.2 })

/-- Blanket impl of SpiBusWrite for a unique reference
(src/spi/blocking.rs lines 256-260): delegates to the owned handle. -/
def SpiBusWriteOps.forMutRef (ops : SpiBusWriteOps B Word BusErr) :
    SpiBusWriteOps (MutRef B) Word BusErr where
  write := fun r words =>
    let out := ops.write r.val words
    (out.1, { val := out.2 })

/-- Blanket impl of SpiBus for a unique reference
(src/spi/blocking.rs lines 284-292): delegates each operation. -/
def SpiBusOps.forMutRef (ops : SpiBusOps B Word BusErr) :
    SpiBusOps (MutRef B) Word BusErr where
  toSpiBusReadOps := ops.toSpiBusReadOps.forMutRef
  toSpiBusWriteOps := ops.toSpiBusWriteOps.forMutRef
  transfer := fun r rbuf wbuf =>
    let out := ops.transfer r.val rbuf wbuf
    (out.1, out.2.1, { val := out.2.2 })
  transferInPlace := fun r buf =>
    let out := ops.transferInPlace r.val buf
    (out.1, out.2.1, { val := out.2.2 })

/-- Blanket impl of SpiDevice for a unique reference
(src/spi/blocking.rs lines 225-233): delegates transaction. -/
def SpiDeviceOps.forMutRef (dev : SpiDeviceOps D B BusErr DevErr) :
    SpiDeviceOps (MutRef D) B BusErr DevErr where
  transaction := fun d f =>
    let out := dev.transaction d.val f
    (out.1, { val := out.2 })

/-- Modelled from the spec: SpiBus::transfer is a trait method whose
implementations live outside src; only its contract is given
(src/spi/blocking.rs lines 267-276). The transfer runs for
max(read.length, write.length) word slots; the word sent on MOSI in slot i
is write[i] while write lasts and an implementation-defined fill word
afterwards; recv i is the word received on MISO in slot i, stored into read
while room remains and discarded afterwards. The result is the transmitted
sequence and the new contents of the read buffer. -/
def SpiBus.transferRun (fill : Word) (recv : Nat → Word)
    (read write : List Word) : List Word × List Word :=
  let slots := max read.length write.length
  ((List.range slots).map (fun i => write.getD i fill),
   (List.range read.length).map recv)

@[simp]
lemma countSetHigh_nil : countSetHigh ([] : List (TxEvent CSErr BusEv)) = 0 := rfl

@[simp]
lemma countSetHigh_cons_setLow (a : Option CSErr) (l : List (TxEvent CSErr BusEv)) :
    countSetHigh (TxEvent.setLow a :: l) = countSetHigh l := rfl

@[simp]
lemma countSetHigh_cons_setHigh (a : Option CSErr) (l : List (TxEvent CSErr BusEv)) :
    countSetHigh (TxEvent.setHigh a :: l) = countSetHigh l + 1 := rfl

@[simp]
lemma countSetHigh_cons_bus (a : BusEv) (l : List (TxEvent CSErr BusEv)) :
    countSetHigh (TxEvent.bus a :: l) = countSetHigh l := rfl

@[simp]
lemma countSetHigh_append (l1 l2 : List (TxEvent CSErr BusEv)) :
    countSetHigh (l1 ++ l2) = countSetHigh l1 + countSetHigh l2 := by
  induction l1 with
  | nil => simp
  | cons a l ih =>
    cases a
    · simp [ih]
    · simp [ih]
      omega
    · simp [ih]

@[simp]
lemma countSetHigh_map_bus (l : List BusEv) :
    countSetHigh (l.map (fun e => (TxEvent.bus e : TxEvent CSErr BusEv))) = 0 := by
  induction l with
  | nil => rfl
  | cons a l ih => simpa using ih

lemma OutputPin.setHigh_level_of_ok (p : OutputPin CSErr)
    (h : (p.setHigh).1 = Except.ok ()) : (p.setHigh).2.level = true := by
  rcases hs : p.script with _ | ⟨a, rest⟩
  · simp [OutputPin.setHigh, hs]
  · cases a
    · simp [OutputPin.setHigh, hs]
    · simp [OutputPin.setHigh, hs] at h

/-- A concrete device whose pin always succeeds, for witnesses. -/
def okPinDevice : ExclusiveDevice Nat Nat :=
  { bus := 0, cs := { level := true, script := [] } }

/-- A concrete device whose first pin drive fails with error 5, for witnesses. -/
def failAssertDevice : ExclusiveDevice Nat Nat :=
  { bus := 0, cs := { level := true, script := [some 5] } }

/-- A concrete device whose first pin drive succeeds and second fails with
error 5, for witnesses. -/
def failDeassertDevice : ExclusiveDevice Nat Nat :=
  { bus := 0, cs := { level := true, script := [none, some 5] } }

/-- A concrete transaction body failing with bus error 3 after one bus
operation, for witnesses. -/
def busErrBody : Nat → Except Nat Nat × Nat × List Nat :=
  fun b => (Except.error 3, b + 1, [7])

/-- A concrete transaction body succeeding with value 9 after one bus
operation, for witnesses. -/
def okBody : Nat → Except Nat Nat × Nat × List Nat :=
  fun b => (Except.ok 9, b + 1, [7])

/-- C1: when the body returns a bus error and chip-select assertion had
succeeded, the transaction reports exactly that error wrapped as Spi,
whatever the deassert outcome, and the trace records exactly one setHigh
call, placed after all of the body bus operations. -/
theorem exclusive_transaction_bus_error_reported
    (d : ExclusiveDevice BUS CSErr) (f : BUS → Except BusErr R × BUS × List BusEv)
    (e : BusErr)
    (hlow : (d.cs.setLow).1 = Except.ok ())
    (hf : (f d.bus).1 = Except.error e) :
    (d.transaction f).1 = Except.error (ExclusiveDeviceError.Spi e) ∧
    countSetHigh (d.transaction f).2.2 = 1 ∧
    (d.transaction f).2.2 =
      TxEvent.setLow none :: ((f d.bus).2.2.map TxEvent.bus ++
        [TxEvent.setHigh (errOpt (((d.cs.setLow).2).setHigh).1)]) := by
  rcases hl : d.cs.setLow with ⟨rl, cs1⟩
  rw [hl] at hlow
  simp at hlow
  subst hlow
  rcases hfp : f d.bus with ⟨fr, bus1, evs⟩
  rw [hfp] at hf
  simp at hf
  subst hf
  rcases hhp : cs1.setHigh with ⟨rh, cs2⟩
  refine ⟨?_, ?_, ?_⟩ <;> simp [ExclusiveDevice.transaction, hl, hfp, hhp]

/-- C1 witness: concrete run with a failing body and an always-ok pin. -/
theorem exclusive_transaction_bus_error_reported_witness :
    (okPinDevice.transaction busErrBody).1 =
      Except.error (ExclusiveDeviceError.Spi 3) ∧
    countSetHigh (okPinDevice.transaction busErrBody).2.2 = 1 :=
  ⟨(exclusive_transaction_bus_error_reported okPinDevice busErrBody 3 rfl rfl).1,
   (exclusive_transaction_bus_error_reported okPinDevice busErrBody 3 rfl rfl).2.1⟩

/-- C2: when chip-select assertion fails, the transaction reports the pin
error wrapped as Cs, the trace records only the failed setLow (so no
setHigh and no bus operation happens), and the outcome does not depend on
the body at all. -/
theorem exclusive_transaction_assert_fail_skips_body
    (d : ExclusiveDevice BUS CSErr) (f : BUS → Except BusErr R × BUS × List BusEv)
    (e : CSErr)
    (hlow : (d.cs.setLow).1 = Except.error e) :
    (d.transaction f).1 = Except.error (ExclusiveDeviceError.Cs e) ∧
    (d.transaction f).2.2 = [TxEvent.setLow (some e)] ∧
    ∀ g : BUS → Except BusErr R × BUS × List BusEv,
      d.transaction f = d.transaction g := by
  rcases hl : d.cs.setLow with ⟨rl, cs1⟩
  rw [hl] at hlow
  simp at hlow
  subst hlow
  refine ⟨?_, ?_, ?_⟩ <;> simp [ExclusiveDevice.transaction, hl]

/-- C2 witness: concrete run with a pin whose first drive fails. -/
theorem exclusive_transaction_assert_fail_skips_body_witness :
    (failAssertDevice.transaction busErrBody).1 =
      Except.error (ExclusiveDeviceError.Cs 5) ∧
    (failAssertDevice.transaction busErrBody).2.2 = [TxEvent.setLow (some 5)] :=
  ⟨(exclusive_transaction_assert_fail_skips_body failAssertDevice busErrBody 5 rfl).1,
   (exclusive_transaction_assert_fail_skips_body failAssertDevice busErrBody 5 rfl).2.1⟩

/-- C3: when the body succeeds but chip-select deassertion fails, the
transaction reports the pin error wrapped as Cs, discarding the body value. -/
theorem exclusive_transaction_deassert_fail_reported
    (d : ExclusiveDevice BUS CSErr) (f : BUS → Except BusErr R × BUS × List BusEv)
    (r : R) (e : CSErr)
    (hlow : (d.cs.setLow).1 = Except.ok ())
    (hf : (f d.bus).1 = Except.ok r)
    (hh : (((d.cs.setLow).2).setHigh).1 = Except.error e) :
    (d.transaction f).1 = Except.error (ExclusiveDeviceError.Cs e) := by
  rcases hl : d.cs.setLow with ⟨rl, cs1⟩
  rw [hl] at hlow hh
  simp at hlow
  subst hlow
  rcases hfp : f d.bus with ⟨fr, bus1, evs⟩
  rw [hfp] at hf
  simp at hf
  subst hf
  rcases hhp : cs1.setHigh with ⟨rh, cs2⟩
  rw [hhp] at hh
  simp at hh
  subst hh
  simp [ExclusiveDevice.transaction, hl, hfp, hhp]

/-- C3 witness: concrete run with a succeeding body and a pin failing on
the second drive. -/
theorem exclusive_transaction_deassert_fail_reported_witness :
    (failDeassertDevice.transaction okBody).1 =
      Except.error (ExclusiveDeviceError.Cs 5) :=
  exclusive_transaction_deassert_fail_reported failDeassertDevice okBody 9 5
    rfl rfl rfl

/-- C4: when the body succeeds and both pin drives succeed, the transaction
returns exactly the body value and the chip-select pin ends high (inactive). -/
theorem exclusive_transaction_success
    (d : ExclusiveDevice BUS CSErr) (f : BUS → Except BusErr R × BUS × List BusEv)
    (r : R)
    (hlow : (d.cs.setLow).1 = Except.ok ())
    (hf : (f d.bus).1 = Except.ok r)
    (hh : (((d.cs.setLow).2).setHigh).1 = Except.ok ()) :
    (d.transaction f).1 = Except.ok r ∧
    (d.transaction f).2.1.cs.level = true := by
  rcases hl : d.cs.setLow with ⟨rl, cs1⟩
  rw [hl] at hlow hh
  simp at hlow
  subst hlow
  rcases hfp : f d.bus with ⟨fr, bus1, evs⟩
  rw [hfp] at hf
  simp at hf
  subst hf
  have hlev := OutputPin.setHigh_level_of_ok cs1 hh
  rcases hhp : cs1.setHigh with ⟨rh, cs2⟩
  rw [hhp] at hh hlev
  simp at hh
  subst hh
  simp at hlev
  refine ⟨?_, ?_⟩ <;> simp [ExclusiveDevice.transaction, hl, hfp, hhp, hlev]

/-- C4 witness: concrete run with everything succeeding. -/
theorem exclusive_transaction_success_witness :
    (okPinDevice.transaction okBody).1 = Except.ok 9 ∧
    (okPinDevice.transaction okBody).2.1.cs.level = true :=
  exclusive_transaction_success okPinDevice okBody 9 rfl rfl rfl

/-- C7: when chip-select assertion succeeds, the observable event sequence
is exactly setLow, then the body bus operations, then setHigh last, on
every exit path including a failing body. -/
theorem exclusive_transaction_event_order
    (d : ExclusiveDevice BUS CSErr) (f : BUS → Except BusErr R × BUS × List BusEv)
    (hlow : (d.cs.setLow).1 = Except.ok ()) :
    (d.transaction f).2.2 =
      TxEvent.setLow none :: ((f d.bus).2.2.map TxEvent.bus ++
        [TxEvent.setHigh (errOpt (((d.cs.setLow).2).setHigh).1)]) := by
  rcases hl : d.cs.setLow with ⟨rl, cs1⟩
  rw [hl] at hlow
  simp at hlow
  subst hlow
  rcases hfp : f d.bus with ⟨fr, bus1, evs⟩
  rcases hhp : cs1.setHigh with ⟨rh, cs2⟩
  cases fr <;> cases rh <;> simp [ExclusiveDevice.transaction, hl, hfp, hhp]

/-- C7 witness: concrete run showing the full ordered trace. -/
theorem exclusive_transaction_event_order_witness :
    (okPinDevice.transaction okBody).2.2 =
      TxEvent.setLow none :: ((okBody okPinDevice.bus).2.2.map TxEvent.bus ++
        [TxEvent.setHigh (errOpt (((okPinDevice.cs.setLow).2).setHigh).1)]) :=
  exclusive_transaction_event_order okPinDevice okBody rfl

/-- C5: kind classification of ExclusiveDeviceError: a wrapped bus error
delegates to the bus error own kind, a wrapped chip-select failure is
always a chip-select fault. -/
theorem exclusiveDeviceError_kind_classification {BUS CS : Type}
    (busKind : BUS → ErrorKind) :
    (∀ e : BUS,
      (ExclusiveDeviceError.Spi e : ExclusiveDeviceError BUS CS).kind busKind
        = busKind e) ∧
    (∀ c : CS,
      (ExclusiveDeviceError.Cs c : ExclusiveDeviceError BUS CS).kind busKind
        = ErrorKind.ChipSelectFault) :=
  ⟨fun _ => rfl, fun _ => rfl⟩

/-- C6: each device-level convenience method equals the transaction whose
body performs exactly the corresponding single bus-capability operation on
the lent bus, with identical result and identical final device state. -/
theorem spiDevice_convenience_eq_transaction
    (dev : SpiDeviceOps D B BusErr DevErr)
    (bw : SpiBusWriteOps B Word BusErr) (br : SpiBusReadOps B Word BusErr)
    (bb : SpiBusOps B Word BusErr) (d : D)
    (buf rbuf wbuf ibuf : List Word) :
    dev.write bw d buf = dev.transaction d (fun b => bw.write b buf) ∧
    dev.read br d buf = dev.transaction d (fun b =>
      ((br.read b buf).1.map (fun _ => (br.read b buf).2.1),
        (br.read b buf).2.2)) ∧
    dev.transfer bb d rbuf wbuf = dev.transaction d (fun b =>
      ((bb.transfer b rbuf wbuf).1.map (fun _ => (bb.transfer b rbuf wbuf).2.1),
        (bb.transfer b rbuf wbuf).2.2)) ∧
    dev.transferInPlace bb d ibuf = dev.transaction d (fun b =>
      ((bb.transferInPlace b ibuf).1.map (fun _ => (bb.transferInPlace b ibuf).2.1),
        (bb.transferInPlace b ibuf).2.2)) :=
  ⟨rfl, rfl, rfl, rfl⟩

/-- C9: every blanket impl for a unique temporary reference delegates to the
owned handle: same result, same mutated buffers, and the state behind the
reference ends equal to the state the owned handle would end in. -/
theorem mutRef_blanket_delegation
    (br : SpiBusReadOps B Word BusErr) (bw : SpiBusWriteOps B Word BusErr)
    (bb : SpiBusOps B Word BusErr) (dev : SpiDeviceOps D B BusErr DevErr)
    (b : B) (d : D) (R : Type) (f : B → Except BusErr R × B)
    (buf rbuf wbuf ibuf : List Word) :
    br.forMutRef.read ⟨b⟩ buf =
      ((br.read b buf).1, (br.read b buf).2.1, ⟨(br.read b buf).2.2⟩) ∧
    bw.forMutRef.write ⟨b⟩ buf =
      ((bw.write b buf).1, ⟨(bw.write b buf).2⟩) ∧
    bb.forMutRef.transfer ⟨b⟩ rbuf wbuf =
      ((bb.transfer b rbuf wbuf).1, (bb.transfer b rbuf wbuf).2.1,
        ⟨(bb.transfer b rbuf wbuf).2.2⟩) ∧
    bb.forMutRef.transferInPlace ⟨b⟩ ibuf =
      ((bb.transferInPlace b ibuf).1, (bb.transferInPlace b ibuf).2.1,
        ⟨(bb.transferInPlace b ibuf).2.2⟩) ∧
    bb.forMutRef.read ⟨b⟩ buf =
      ((bb.read b buf).1, (bb.read b buf).2.1, ⟨(bb.read b buf).2.2⟩) ∧
    bb.forMutRef.write ⟨b⟩ buf =
      ((bb.write b buf).1, ⟨(bb.write b buf).2⟩) ∧
    dev.forMutRef.transaction ⟨d⟩ f =
      ((dev.transaction d f).1, ⟨(dev.transaction d f).2⟩) :=
  ⟨rfl, rfl, rfl, rfl, rfl, rfl, rfl⟩

/-- C10: ExclusiveDevice::new is total (never fails), stores exactly the
given bus and chip-select handles, and performs no bus or pin operation:
the stored handles, including the pin electrical level and its pending
script, are exactly the ones passed in. -/
theorem exclusiveDevice_new_frame (bus : BUS) (cs : OutputPin CSErr) :
    ExclusiveDevice.new bus cs = { bus := bus, cs := cs } ∧
    (ExclusiveDevice.new bus cs).bus = bus ∧
    (ExclusiveDevice.new bus cs).cs = cs ∧
    (ExclusiveDevice.new bus cs).cs.level = cs.level ∧
    (ExclusiveDevice.new bus cs).cs.script = cs.script :=
  ⟨rfl, rfl, rfl, rfl, rfl⟩

/-- C8: the transfer contract: the operation spans exactly
max(len read, len write) word slots, the transmitted sequence begins with
all of write (filler afterwards), and the read buffer ends with exactly
len read words (the first len read received words, the rest discarded),
for all lengths including zero and mismatched ones. -/
theorem spiBus_transfer_contract (fill : Word) (recv : Nat → Word)
    (read write : List Word) :
    (SpiBus.transferRun fill recv read write).1.length =
      max read.length write.length ∧
    (SpiBus.transferRun fill recv read write).1.take write.length = write ∧
    (SpiBus.transferRun fill recv read write).2.length = read.length ∧
    (SpiBus.transferRun fill recv read write).2 =
      (List.range read.length).map recv := by
  refine ⟨by simp [SpiBus.transferRun], ?_, by simp [SpiBus.transferRun], rfl⟩
  simp only [SpiBus.transferRun]
  apply List.ext_getElem
  · simp [Nat.min_eq_left (Nat.le_max_right read.length write.length)]
  · intro i h1 h2
    have hw : i < write.length := by
      simpa [Nat.min_eq_left (Nat.le_max_right read.length write.length)] using h1
    have hm : i < max read.length write.length :=
      lt_of_lt_of_le hw (Nat.le_max_right read.length write.length)
    simp [List.getElem_take, List.getElem_map, List.getElem_range,
      List.getElem?_eq_getElem hw]
